import Mathlib

/-!
Shallow embedding of the stellar-architect physics engine
(`src/lib/physics/src/lib.rs`, crate compiled to wasm32).

The `f32` arithmetic of the source is modelled by exact real arithmetic
(`ℝ`, with `Real.sqrt` for `f32::sqrt`); `js_sys::Math::random()` is
modelled by an explicit stream `rand : ℕ → ℝ` consumed in call order;
`Vec<T>` is a `List`; console logging has no effect on the state and is
dropped.  All definitions mirror the Rust source line by line.
-/

namespace StellarArchitect

/-- Gravitational constant `G` from the source. -/
noncomputable def G : ℝ := 0.1

/-- Mirrors `struct Particle` (a dust/gas particle; `z` is parallax depth). -/
structure Particle where
  x : ℝ
  y : ℝ
  z : ℝ
  vx : ℝ
  vy : ℝ
  vz : ℝ

/-- Mirrors `struct Star`. -/
structure Star where
  x : ℝ
  y : ℝ
  mass : ℝ
  age : ℕ
  is_ignited : Bool

/-- Mirrors `struct BlackHole`. -/
structure BlackHole where
  x : ℝ
  y : ℝ
  mass : ℝ

/-- Mirrors `struct Universe`: the whole simulation state. -/
structure Universe where
  width : ℝ
  height : ℝ
  particles : List Particle
  stars : List Star
  black_holes : List BlackHole
  debug_mode : Bool

/-- One iteration of the star loop in `Universe::tick`: given the particle
position `(px, py)` (the star loop never writes the particle) and the
accumulated force `f = (fx, fy)`, process one star. -/
noncomputable def starStep (px py : ℝ) (f : ℝ × ℝ) (s : Star) : ℝ × ℝ :=
  let dx := s.x - px
  let dy := s.y - py
  let dist_sq := dx * dx + dy * dy
  if dist_sq > 10 then
    let force := (G * s.mass) / dist_sq
    (f.1 + force * dx / Real.sqrt dist_sq, f.2 + force * dy / Real.sqrt dist_sq)
  else
    f

/-- One iteration of the black-hole loop in `Universe::tick`.  The loop
state is `(px, fx, fy)`: the black-hole branch `dist_sq < 1.0` writes
`particle.x = -100.0` immediately, so later black holes in the same pass
see the updated `px`; `py` is never written by this loop. -/
noncomputable def bhStep (py : ℝ) (st : ℝ × ℝ × ℝ) (bh : BlackHole) : ℝ × ℝ × ℝ :=
  let px := st.1
  let fx := st.2.1
  let fy := st.2.2
  let dx := bh.x - px
  let dy := bh.y - py
  let dist_sq := dx * dx + dy * dy
  if dist_sq > 25 then
    let force := (G * bh.mass) / dist_sq
    (px, fx + force * dx / Real.sqrt dist_sq, fy + force * dy / Real.sqrt dist_sq)
  else if dist_sq < 1 then
    (-100, fx, fy)
  else
    (px, fx, fy)

/-- The two force-accumulation loops of `Universe::tick` for one particle:
first all stars (read-only on the particle), then all black holes
(which may write the removal sentinel into `x`).  Returns the final
`(x, fx, fy)`. -/
noncomputable def forcePass (stars : List Star) (black_holes : List BlackHole)
    (p : Particle) : ℝ × ℝ × ℝ :=
  let sf := stars.foldl (starStep p.x p.y) (0, 0)
  black_holes.foldl (bhStep p.y) (p.x, sf.1, sf.2)

/-- The whole per-particle body of the loop in `Universe::tick`: force
accumulation, unconditional semi-implicit Euler integration
(`vx += fx; vy += fy; x += vx; y += vy`), then boundary reflection
(negate the velocity component when the new coordinate is outside
`[0, width]` resp. `[0, height]`; the position is not clamped). -/
noncomputable def tickParticle (width height : ℝ) (stars : List Star)
    (black_holes : List BlackHole) (p : Particle) : Particle :=
  let st := forcePass stars black_holes p
  let vx1 := p.vx + st.2.1
  let vy1 := p.vy + st.2.2
  let x1 := st.1 + vx1
  let y1 := p.y + vy1
  let vx2 := if x1 < 0 ∨ x1 > width then -vx1 else vx1
  let vy2 := if y1 < 0 ∨ y1 > height then -vy1 else vy1
  { x := x1, y := y1, z := p.z, vx := vx2, vy := vy2, vz := p.vz }

/-- Mirrors `Universe::tick`: every particle is updated independently
(the loop reads only `stars`, `black_holes` and the particle itself),
then `self.particles.retain(|p| p.x > -50.0)` keeps, in order, exactly
the particles with `x > -50`.  The debug log does not change the state. -/
noncomputable def Universe.tick (u : Universe) : Universe :=
  { u with particles :=
      ((u.particles.map (tickParticle u.width u.height u.stars u.black_holes)).filter
        (fun p => decide (p.x > -50))) }

/-- Mirrors `Universe::get_particles_data`: pushes `x, y, z` of each
particle, in collection order, onto an initially empty vector. -/
noncomputable def Universe.get_particles_data (u : Universe) : List ℝ :=
  u.particles.foldl (fun data p => data ++ [p.x, p.y, p.z]) []

/-- Mirrors `Universe::add_star` (`age = 0`, `is_ignited = true`). -/
noncomputable def Universe.add_star (u : Universe) (x y mass : ℝ) : Universe :=
  { u with stars := u.stars ++ [{ x := x, y := y, mass := mass, age := 0, is_ignited := true }] }

/-- Mirrors `Universe::add_black_hole`. -/
noncomputable def Universe.add_black_hole (u : Universe) (x y mass : ℝ) : Universe :=
  { u with black_holes := u.black_holes ++ [{ x := x, y := y, mass := mass }] }

/-- The `isize::MAX` of the wasm32 target the crate is built for. -/
def isizeMax : ℕ := 2 ^ 31 - 1

/-- Size in bytes of `Particle` (six `f32` fields). -/
def particleSize : ℕ := 24

/-- Rust `as usize` on an `i32` value, on wasm32 (`usize` is 32 bits):
the two's-complement bits are reinterpreted, i.e. reduction mod `2^32`. -/
def asUsize (n : ℤ) : ℕ := (n % 2 ^ 32).toNat

/-- The particle built for index `i` of the construction loop, consuming
five `Math.random()` calls in source order (`x, y, z, vx, vy`). -/
noncomputable def mkRandomParticle (rand : ℕ → ℝ) (width height : ℝ) (i : ℕ) : Particle :=
  { x := rand (5 * i) * width
    y := rand (5 * i + 1) * height
    z := rand (5 * i + 2)
    vx := (rand (5 * i + 3) - 0.5) * 0.2
    vy := (rand (5 * i + 4) - 0.5) * 0.2
    vz := 0 }

/-- Mirrors `Universe::new`.  `Vec::with_capacity(particle_count as usize)`
panics with "capacity overflow" when the requested capacity exceeds
`isize::MAX` bytes (documented behaviour of `Vec`), which the model
renders as `Except.error`; otherwise the loop `for _ in 0..particle_count`
pushes one random particle per iteration (none when `particle_count ≤ 0`,
since the `i32` range is then empty). -/
noncomputable def Universe.new (rand : ℕ → ℝ) (width height : ℝ)
    (particle_count : ℤ) (debug_mode : Bool) : Except String Universe :=
  if particleSize * asUsize particle_count ≤ isizeMax then
    Except.ok
      { width := width
        height := height
        particles :=
          (List.range (if particle_count ≤ 0 then 0 else particle_count.toNat)).map
            (mkRandomParticle rand width height)
        stars := []
        black_holes := []
        debug_mode := debug_mode }
  else
    Except.error "capacity overflow"

/-- The public operations available on a constructed `Universe`, for
stating invariants over arbitrary operation sequences. -/
inductive SimOp
  | tick
  | addStar (x y mass : ℝ)
  | addBlackHole (x y mass : ℝ)
  | snapshot

/-- Interpretation of one operation.  `snapshot` (`get_particles_data`)
takes `&self` in the source and cannot mutate the state. -/
noncomputable def Universe.applyOp (u : Universe) : SimOp → Universe
  | SimOp.tick => u.tick
  | SimOp.addStar x y m => u.add_star x y m
  | SimOp.addBlackHole x y m => u.add_black_hole x y m
  | SimOp.snapshot => u

/-- Interpretation of a sequence of operations, first to last. -/
noncomputable def Universe.applyOps (u : Universe) (ops : List SimOp) : Universe :=
  ops.foldl Universe.applyOp u

/-! ### Helper lemmas about the per-body force steps -/

lemma starStep_eq_far (px py fx fy : ℝ) (s : Star)
    (h : (s.x - px) * (s.x - px) + (s.y - py) * (s.y - py) > 10) :
    starStep px py (fx, fy) s =
      (fx + G * s.mass / ((s.x - px) * (s.x - px) + (s.y - py) * (s.y - py)) * (s.x - px) /
         Real.sqrt ((s.x - px) * (s.x - px) + (s.y - py) * (s.y - py)),
       fy + G * s.mass / ((s.x - px) * (s.x - px) + (s.y - py) * (s.y - py)) * (s.y - py) /
         Real.sqrt ((s.x - px) * (s.x - px) + (s.y - py) * (s.y - py))) := by
  simp only [starStep]
  rw [if_pos h]

lemma starStep_eq_near (px py fx fy : ℝ) (s : Star)
    (h : (s.x - px) * (s.x - px) + (s.y - py) * (s.y - py) ≤ 10) :
    starStep px py (fx, fy) s = (fx, fy) := by
  simp only [starStep]
  rw [if_neg (by linarith)]

lemma starFold_eq_of_all_near (px py fx fy : ℝ) (stars : List Star)
    (h : ∀ s ∈ stars, (s.x - px) * (s.x - px) + (s.y - py) * (s.y - py) ≤ 10) :
    stars.foldl (starStep px py) (fx, fy) = (fx, fy) := by
  induction stars with
  | nil => rfl
  | cons a l ih =>
    rw [List.foldl_cons, starStep_eq_near px py fx fy a (h a (List.mem_cons_self a l))]
    exact ih (fun s hs => h s (List.mem_cons_of_mem a hs))

lemma bhStep_eq_far (py px fx fy : ℝ) (bh : BlackHole)
    (h : (bh.x - px) * (bh.x - px) + (bh.y - py) * (bh.y - py) > 25) :
    bhStep py (px, fx, fy) bh =
      (px,
       fx + G * bh.mass / ((bh.x - px) * (bh.x - px) + (bh.y - py) * (bh.y - py)) *
         (bh.x - px) / Real.sqrt ((bh.x - px) * (bh.x - px) + (bh.y - py) * (bh.y - py)),
       fy + G * bh.mass / ((bh.x - px) * (bh.x - px) + (bh.y - py) * (bh.y - py)) *
         (bh.y - py) / Real.sqrt ((bh.x - px) * (bh.x - px) + (bh.y - py) * (bh.y - py))) := by
  simp only [bhStep]
  rw [if_pos h]

lemma bhStep_eq_mark (py px fx fy : ℝ) (bh : BlackHole)
    (h : (bh.x - px) * (bh.x - px) + (bh.y - py) * (bh.y - py) < 1) :
    bhStep py (px, fx, fy) bh = (-100, fx, fy) := by
  simp only [bhStep]
  rw [if_neg (by linarith), if_pos h]

lemma bhStep_eq_band (py px fx fy : ℝ) (bh : BlackHole)
    (h1 : 1 ≤ (bh.x - px) * (bh.x - px) + (bh.y - py) * (bh.y - py))
    (h25 : (bh.x - px) * (bh.x - px) + (bh.y - py) * (bh.y - py) ≤ 25) :
    bhStep py (px, fx, fy) bh = (px, fx, fy) := by
  simp only [bhStep]
  rw [if_neg (by linarith), if_neg (by linarith)]

lemma sqrt_hundred : Real.sqrt 100 = 10 := by
  rw [show (100 : ℝ) = 10 ^ 2 by norm_num]
  exact Real.sqrt_sq (by norm_num)

/-! ### Claim theorems -/

/-- C1: in the black-hole pass, for each particle state and each black
hole, with `(dx, dy)` the black hole position minus the particle position
and `d2 = dx² + dy²`: if `d2 > 25` a force of magnitude `G·mass/d2`
directed along `(dx, dy)/√d2` is added to the accumulated `(fx, fy)`; if
`d2 < 1` the particle's `x` is set to the sentinel `-100`; and for every
`d2` in the band `[1, 25]` the black hole contributes neither force nor
removal marking. -/
theorem bh_force_mark_band (py px fx fy dx dy d2 : ℝ) (bh : BlackHole)
    (hdx : dx = bh.x - px) (hdy : dy = bh.y - py) (hd2 : d2 = dx * dx + dy * dy) :
    (d2 > 25 → bhStep py (px, fx, fy) bh =
       (px, fx + G * bh.mass / d2 * dx / Real.sqrt d2,
        fy + G * bh.mass / d2 * dy / Real.sqrt d2)) ∧
    (d2 < 1 → bhStep py (px, fx, fy) bh = (-100, fx, fy)) ∧
    (1 ≤ d2 → d2 ≤ 25 → bhStep py (px, fx, fy) bh = (px, fx, fy)) := by
  subst hdx hdy hd2
  exact ⟨bhStep_eq_far py px fx fy bh, bhStep_eq_mark py px fx fy bh,
    bhStep_eq_band py px fx fy bh⟩

/-- Witness for C1: the three branches at concrete inputs.  A black hole
at distance² 100 with mass 1000 adds force `0.1·1000/100 · 10/10 = 1` to
`fx`; one at distance² 1/4 writes the sentinel; one at distance² exactly
25 changes nothing. -/
theorem bh_force_mark_band_app :
    bhStep 0 ((0 : ℝ), 0, 0) { x := 10, y := 0, mass := 1000 } = (0, 1, 0) ∧
    bhStep 0 ((0 : ℝ), 0, 0) { x := 1 / 2, y := 0, mass := 7 } = (-100, 0, 0) ∧
    bhStep 0 ((0 : ℝ), 0, 0) { x := 5, y := 0, mass := 7 } = (0, 0, 0) := by
  refine ⟨?_, ?_, ?_⟩
  · have h := (bh_force_mark_band 0 0 0 0 10 0 100 { x := 10, y := 0, mass := 1000 }
      (by norm_num) (by norm_num) (by norm_num)).1 (by norm_num)
    rw [h, sqrt_hundred]
    norm_num [G]
  · exact (bh_force_mark_band 0 0 0 0 (1 / 2) 0 (1 / 4) { x := 1 / 2, y := 0, mass := 7 }
      (by norm_num) (by norm_num) (by norm_num)).2.1 (by norm_num)
  · exact (bh_force_mark_band 0 0 0 0 5 0 25 { x := 5, y := 0, mass := 7 }
      (by norm_num) (by norm_num) (by norm_num)).2.2 (by norm_num) (by norm_num)

/-- C4: in the star pass, for each particle and each star, with
`(dx, dy) = star position − particle position` and `d2 = dx² + dy²`: if
`d2 > 10` a force of magnitude `G·mass/d2` (with `G = 0.1`) directed
along `(dx, dy)/√d2` is added to the accumulated `(fx, fy)`; if
`d2 ≤ 10` the star contributes exactly zero; hence a particle whose
squared distance to every star is at most 10 gets zero accumulated force
from the whole star pass. -/
theorem star_force_threshold (px py fx fy dx dy d2 : ℝ) (s : Star)
    (hdx : dx = s.x - px) (hdy : dy = s.y - py) (hd2 : d2 = dx * dx + dy * dy) :
    (d2 > 10 → starStep px py (fx, fy) s =
       (fx + G * s.mass / d2 * dx / Real.sqrt d2,
        fy + G * s.mass / d2 * dy / Real.sqrt d2)) ∧
    (d2 ≤ 10 → starStep px py (fx, fy) s = (fx, fy)) ∧
    (∀ stars : List Star,
       (∀ s' ∈ stars, (s'.x - px) * (s'.x - px) + (s'.y - py) * (s'.y - py) ≤ 10) →
       stars.foldl (starStep px py) (fx, fy) = (fx, fy)) ∧
    G = 0.1 := by
  subst hdx hdy hd2
  exact ⟨starStep_eq_far px py fx fy s, starStep_eq_near px py fx fy s,
    starFold_eq_of_all_near px py fx fy, rfl⟩

/-- Witness for C4: a star at distance² 100 with mass 1000 adds force 1
to `fx`; a star at distance² exactly 10 contributes nothing; a star pass
over two stars both within distance² ≤ 10 leaves the force at zero. -/
theorem star_force_threshold_app :
    starStep 0 0 ((0 : ℝ), 0) { x := 10, y := 0, mass := 1000, age := 0, is_ignited := true } =
      (1, 0) ∧
    starStep 0 0 ((0 : ℝ), 0) { x := 3, y := 1, mass := 1000, age := 0, is_ignited := true } =
      (0, 0) ∧
    [({ x := 3, y := 1, mass := 1000, age := 0, is_ignited := true } : Star),
     { x := 0, y := 2, mass := 5, age := 0, is_ignited := true }].foldl
       (starStep 0 0) ((0 : ℝ), 0) = (0, 0) := by
  refine ⟨?_, ?_, ?_⟩
  · have h := (star_force_threshold 0 0 0 0 10 0 100
      { x := 10, y := 0, mass := 1000, age := 0, is_ignited := true }
      (by norm_num) (by norm_num) (by norm_num)).1 (by norm_num)
    rw [h, sqrt_hundred]
    norm_num [G]
  · exact (star_force_threshold 0 0 0 0 3 1 10
      { x := 3, y := 1, mass := 1000, age := 0, is_ignited := true }
      (by norm_num) (by norm_num) (by norm_num)).2.1 (by norm_num)
  · refine (star_force_threshold 0 0 0 0 3 1 10
      { x := 3, y := 1, mass := 1000, age := 0, is_ignited := true }
      (by norm_num) (by norm_num) (by norm_num)).2.2.1 _ ?_
    intro s' hs'
    rcases List.mem_cons.mp hs' with h | h
    · rw [h]; norm_num
    · rw [List.mem_singleton.mp h]; norm_num

/-- C2: integration is unconditional: for every particle — also one whose
`x` was set to the `-100` sentinel during the black-hole pass of the same
update — the per-particle step ends with `x = px + (vx + fx)` and
`y = py + (vy + fy)` where `(px, fx, fy)` is the force-pass result; in
particular a marked particle ends the step at `-100 + post-force vx`,
not at `-100`. -/
theorem integration_unconditional (width height : ℝ) (stars : List Star)
    (black_holes : List BlackHole) (p : Particle) :
    (tickParticle width height stars black_holes p).x =
      (forcePass stars black_holes p).1 + (p.vx + (forcePass stars black_holes p).2.1) ∧
    (tickParticle width height stars black_holes p).y =
      p.y + (p.vy + (forcePass stars black_holes p).2.2) ∧
    ((forcePass stars black_holes p).1 = -100 →
      (tickParticle width height stars black_holes p).x =
        -100 + (p.vx + (forcePass stars black_holes p).2.1)) := by
  have h1 : (tickParticle width height stars black_holes p).x =
      (forcePass stars black_holes p).1 + (p.vx + (forcePass stars black_holes p).2.1) := rfl
  exact ⟨h1, rfl, fun h => by rw [h1, h]⟩

/-- Witness for C2: a particle at the origin with `vx = 2` next to a
black hole at distance² `1/4 < 1` is marked (`px = -100`, zero force) and
still integrates, ending the step at `x = -100 + 2 = -98`. -/
theorem integration_unconditional_app :
    forcePass [] [{ x := 1 / 2, y := 0, mass := 7 }]
      { x := 0, y := 0, z := 0, vx := 2, vy := 0, vz := 0 } = (-100, 0, 0) ∧
    (tickParticle 1000 1000 [] [{ x := 1 / 2, y := 0, mass := 7 }]
      { x := 0, y := 0, z := 0, vx := 2, vy := 0, vz := 0 }).x = -98 := by
  have hf : forcePass [] [{ x := 1 / 2, y := 0, mass := 7 }]
      { x := 0, y := 0, z := 0, vx := 2, vy := 0, vz := 0 } = (-100, 0, 0) := by
    simp only [forcePass, List.foldl_nil, List.foldl_cons]
    rw [bhStep_eq_mark 0 0 0 0 { x := 1 / 2, y := 0, mass := 7 } (by norm_num)]
  refine ⟨hf, ?_⟩
  have h := (integration_unconditional 1000 1000 [] [{ x := 1 / 2, y := 0, mass := 7 }]
    { x := 0, y := 0, z := 0, vx := 2, vy := 0, vz := 0 }).2.2 (by rw [hf])
  rw [h, hf]
  norm_num

/-- C6: after integration, if the new `x` lies outside `[0, width]` then
`vx` is negated and the position is not clamped (the returned `x` is the
unclamped integrated value); the identical rule applies to `y` against
`[0, height]`; and a particle landing exactly on `0` or exactly on the
(nonnegative) bound keeps its velocity component unchanged. -/
theorem boundary_reflection (width height : ℝ) (stars : List Star)
    (black_holes : List BlackHole) (p : Particle) (vx1 vy1 x1 y1 : ℝ)
    (hvx : vx1 = p.vx + (forcePass stars black_holes p).2.1)
    (hvy : vy1 = p.vy + (forcePass stars black_holes p).2.2)
    (hx : x1 = (forcePass stars black_holes p).1 + vx1)
    (hy : y1 = p.y + vy1) :
    (tickParticle width height stars black_holes p).x = x1 ∧
    (tickParticle width height stars black_holes p).y = y1 ∧
    ((x1 < 0 ∨ x1 > width) → (tickParticle width height stars black_holes p).vx = -vx1) ∧
    (0 ≤ x1 → x1 ≤ width → (tickParticle width height stars black_holes p).vx = vx1) ∧
    ((y1 < 0 ∨ y1 > height) → (tickParticle width height stars black_holes p).vy = -vy1) ∧
    (0 ≤ y1 → y1 ≤ height → (tickParticle width height stars black_holes p).vy = vy1) ∧
    ((x1 = 0 ∨ x1 = width) → 0 ≤ width →
      (tickParticle width height stars black_holes p).vx = vx1) := by
  subst hvx hvy hx hy
  have hvx' : (tickParticle width height stars black_holes p).vx =
      if (forcePass stars black_holes p).1 + (p.vx + (forcePass stars black_holes p).2.1) < 0 ∨
         (forcePass stars black_holes p).1 + (p.vx + (forcePass stars black_holes p).2.1) >
           width
      then -(p.vx + (forcePass stars black_holes p).2.1)
      else p.vx + (forcePass stars black_holes p).2.1 := rfl
  have hvy' : (tickParticle width height stars black_holes p).vy =
      if p.y + (p.vy + (forcePass stars black_holes p).2.2) < 0 ∨
         p.y + (p.vy + (forcePass stars black_holes p).2.2) > height
      then -(p.vy + (forcePass stars black_holes p).2.2)
      else p.vy + (forcePass stars black_holes p).2.2 := rfl
  refine ⟨rfl, rfl, fun h => ?_, fun h0 hw => ?_, fun h => ?_, fun h0 hh => ?_, fun he hw => ?_⟩
  · rw [hvx', if_pos h]
  · rw [hvx', if_neg (by push_neg; exact ⟨h0, hw⟩)]
  · rw [hvy', if_pos h]
  · rw [hvy', if_neg (by push_neg; exact ⟨h0, hh⟩)]
  · rcases he with he | he
    · rw [hvx', if_neg (by push_neg; rw [he]; exact ⟨le_refl 0, hw⟩)]
    · rw [hvx', if_neg (by push_neg; rw [he]; exact ⟨hw, le_refl width⟩)]

/-- Witness for C6: with no bodies, a particle at `x = 99.99` with
`vx = 0.02` in a `100 × 100` box ends the update at `x = 100.01 > 100`
(not clamped) with `vx` negated to `-0.02`; its `y` stays inside, so
`vy` is unchanged; and a particle landing exactly at `x = 100` keeps
`vx`. -/
theorem boundary_reflection_app :
    (tickParticle 100 100 [] []
        { x := 99.99, y := 50, z := 0, vx := 0.02, vy := 0.01, vz := 0 }).x = 100.01 ∧
    (tickParticle 100 100 [] []
        { x := 99.99, y := 50, z := 0, vx := 0.02, vy := 0.01, vz := 0 }).vx = -0.02 ∧
    (tickParticle 100 100 [] []
        { x := 99.99, y := 50, z := 0, vx := 0.02, vy := 0.01, vz := 0 }).vy = 0.01 ∧
    (tickParticle 100 100 [] []
        { x := 99.98, y := 50, z := 0, vx := 0.02, vy := 0, vz := 0 }).vx = 0.02 := by
  have hf : ∀ q : Particle, forcePass [] [] q = (q.x, 0, 0) := fun q => rfl
  have h := boundary_reflection 100 100 [] []
    { x := 99.99, y := 50, z := 0, vx := 0.02, vy := 0.01, vz := 0 }
    0.02 0.01 100.01 50.01 (by rw [hf]; norm_num) (by rw [hf]; norm_num)
    (by rw [hf]; norm_num) (by norm_num)
  have h' := boundary_reflection 100 100 [] []
    { x := 99.98, y := 50, z := 0, vx := 0.02, vy := 0, vz := 0 }
    0.02 0 100 50 (by rw [hf]; norm_num) (by rw [hf]; norm_num)
    (by rw [hf]; norm_num) (by norm_num)
  refine ⟨h.1, h.2.2.1 (by norm_num), h.2.2.2.2.2.1 (by norm_num) (by norm_num),
    h'.2.2.2.2.2.2 (by norm_num) (by norm_num)⟩

/-- C3: the update ends by filtering the updated particles, retaining in
their prior order exactly those with `x` strictly greater than `-50`:
the result is literally `List.filter (-50 < ·.x)` of the mapped
collection (an order-preserving sublist), every survivor has `x > -50`,
every updated particle with `x > -50` survives, and a particle with
`x ≤ -50` is never in the result. -/
theorem retain_filter (u : Universe) :
    u.tick.particles =
      ((u.particles.map (tickParticle u.width u.height u.stars u.black_holes)).filter
        (fun q => decide (-50 < q.x))) ∧
    u.tick.particles.Sublist
      (u.particles.map (tickParticle u.width u.height u.stars u.black_holes)) ∧
    (∀ q ∈ u.tick.particles, -50 < q.x) ∧
    (∀ q, q ∈ u.particles.map (tickParticle u.width u.height u.stars u.black_holes) →
      -50 < q.x → q ∈ u.tick.particles) ∧
    (∀ q : Particle, q.x ≤ -50 → q ∉ u.tick.particles) := by
  refine ⟨rfl, List.filter_sublist _, fun q hq => ?_, fun q hq hx => ?_, fun q hx hq => ?_⟩
  · exact of_decide_eq_true (List.mem_filter.mp hq).2
  · exact List.mem_filter.mpr ⟨hq, decide_eq_true hx⟩
  · exact absurd (of_decide_eq_true (List.mem_filter.mp hq).2) (by linarith)

/-- Witness for C3: a particle sitting at `x = -60` (past the `-50`
threshold) is not in the post-update collection of this concrete
universe. -/
theorem retain_filter_app :
    ({ x := -60, y := 0, z := 0, vx := 0, vy := 0, vz := 0 } : Particle) ∉
      ({ width := 100, height := 100,
         particles := [{ x := -60, y := 0, z := 0, vx := 0, vy := 0, vz := 0 }],
         stars := [], black_holes := [], debug_mode := false } : Universe).tick.particles :=
  (retain_filter
    { width := 100, height := 100,
      particles := [{ x := -60, y := 0, z := 0, vx := 0, vy := 0, vz := 0 }],
      stars := [], black_holes := [], debug_mode := false }).2.2.2.2
    { x := -60, y := 0, z := 0, vx := 0, vy := 0, vz := 0 } (by norm_num)

lemma sqrt_ten_thousand : Real.sqrt 10000 = 100 := by
  rw [show (10000 : ℝ) = 100 ^ 2 by norm_num]
  exact Real.sqrt_sq (by norm_num)

lemma sqrt_forty_thousand : Real.sqrt 40000 = 200 := by
  rw [show (40000 : ℝ) = 200 ^ 2 by norm_num]
  exact Real.sqrt_sq (by norm_num)

/-- C10: the `-100` sentinel is written inside the black-hole loop, so a
later black hole computes its force from `(-100, y)`.  Concretely, for a
particle at the origin, a marking hole `A` at `(1/2, 0)` and a far hole
`B` at `(100, 0)` of mass `10000`: order `[A, B]` accumulates
`fx = 1/40` (force of `B` computed from the sentinel position, distance²
`40000`), order `[B, A]` accumulates `fx = 1/10` (force of `B` computed
from the origin, distance² `10000`), and these differ. -/
theorem bh_sentinel_order_dependence :
    [({ x := 1 / 2, y := 0, mass := 10000 } : BlackHole),
      { x := 100, y := 0, mass := 10000 }].foldl (bhStep 0) (0, 0, 0) = (-100, 1 / 40, 0) ∧
    [({ x := 100, y := 0, mass := 10000 } : BlackHole),
      { x := 1 / 2, y := 0, mass := 10000 }].foldl (bhStep 0) (0, 0, 0) = (-100, 1 / 10, 0) ∧
    (1 / 40 : ℝ) ≠ 1 / 10 := by
  have hfarA : bhStep 0 ((-100 : ℝ), 0, 0) { x := 100, y := 0, mass := 10000 } =
      (-100, 1 / 40, 0) := by
    norm_num [bhStep, G, sqrt_forty_thousand]
  have hfarB : bhStep 0 ((0 : ℝ), 0, 0) { x := 100, y := 0, mass := 10000 } =
      (0, 1 / 10, 0) := by
    norm_num [bhStep, G, sqrt_ten_thousand]
  refine ⟨?_, ?_, by norm_num⟩
  · rw [List.foldl_cons, bhStep_eq_mark 0 0 0 0 { x := 1 / 2, y := 0, mass := 10000 }
      (by norm_num), List.foldl_cons, List.foldl_nil, hfarA]
  · rw [List.foldl_cons, hfarB, List.foldl_cons, List.foldl_nil,
      bhStep_eq_mark 0 0 (1 / 10) 0 { x := 1 / 2, y := 0, mass := 10000 } (by norm_num)]

lemma applyOp_measures (u : Universe) (op : SimOp) :
    (u.applyOp op).particles.length ≤ u.particles.length ∧
    u.stars.length ≤ (u.applyOp op).stars.length ∧
    u.black_holes.length ≤ (u.applyOp op).black_holes.length ∧
    (u.applyOp op).width = u.width ∧
    (u.applyOp op).height = u.height := by
  cases op with
  | tick =>
    refine ⟨?_, le_refl _, le_refl _, rfl, rfl⟩
    calc ((u.particles.map (tickParticle u.width u.height u.stars u.black_holes)).filter
            (fun p => decide (p.x > -50))).length
        ≤ (u.particles.map (tickParticle u.width u.height u.stars u.black_holes)).length :=
          List.length_filter_le _ _
      _ = u.particles.length := List.length_map _ _
  | addStar x y m =>
    refine ⟨le_refl _, ?_, le_refl _, rfl, rfl⟩
    simp [Universe.applyOp, Universe.add_star]
  | addBlackHole x y m =>
    refine ⟨le_refl _, le_refl _, ?_, rfl, rfl⟩
    simp [Universe.applyOp, Universe.add_black_hole]
  | snapshot => exact ⟨le_refl _, le_refl _, le_refl _, rfl, rfl⟩

/-- C8: over any sequence of `tick`, `add_star`, `add_black_hole` and
snapshot operations the particle count never increases, the star and
black-hole counts never decrease, and `width` and `height` are
unchanged; moreover no single operation other than `tick` touches the
particle collection, and `add_star`/`add_black_hole` only append. -/
theorem op_sequence_invariants (u : Universe) (ops : List SimOp) :
    (u.applyOps ops).particles.length ≤ u.particles.length ∧
    u.stars.length ≤ (u.applyOps ops).stars.length ∧
    u.black_holes.length ≤ (u.applyOps ops).black_holes.length ∧
    (u.applyOps ops).width = u.width ∧
    (u.applyOps ops).height = u.height ∧
    (∀ x y m, (u.add_star x y m).particles = u.particles ∧
      (u.add_star x y m).stars = u.stars ++
        [{ x := x, y := y, mass := m, age := 0, is_ignited := true }]) ∧
    (∀ x y m, (u.add_black_hole x y m).particles = u.particles ∧
      (u.add_black_hole x y m).black_holes = u.black_holes ++ [{ x := x, y := y, mass := m }]) ∧
    (u.applyOp SimOp.snapshot = u) := by
  refine ⟨?_, ?_, ?_, ?_, ?_, fun x y m => ⟨rfl, rfl⟩, fun x y m => ⟨rfl, rfl⟩, rfl⟩ <;>
  · induction ops generalizing u with
    | nil => first | exact le_refl _ | rfl
    | cons op rest ih =>
      have h1 := applyOp_measures u op
      have h2 := ih (u.applyOp op)
      simp only [Universe.applyOps, List.foldl_cons] at h2 ⊢
      first
        | exact le_trans h2 h1.1
        | exact le_trans h1.2.1 h2
        | exact le_trans h1.2.2.1 h2
        | exact h2.trans h1.2.2.2.1
        | exact h2.trans h1.2.2.2.2

lemma gpd_foldl (ps : List Particle) (acc : List ℝ) :
    ps.foldl (fun data p => data ++ [p.x, p.y, p.z]) acc =
      acc ++ ps.flatMap (fun p => [p.x, p.y, p.z]) := by
  induction ps generalizing acc with
  | nil => simp
  | cons p l ih =>
    rw [List.foldl_cons, ih, List.flatMap_cons, List.append_assoc]

/-- C9: `get_particles_data` returns the flat `(x, y, z)` triples of the
particles in collection order — a sequence of length exactly three times
the particle count — and the snapshot operation does not change the
state, so two snapshots with no update in between return identical
sequences. -/
theorem snapshot_pure_flat (u : Universe) :
    u.get_particles_data = u.particles.flatMap (fun p => [p.x, p.y, p.z]) ∧
    u.get_particles_data.length = 3 * u.particles.length ∧
    u.applyOp SimOp.snapshot = u ∧
    (u.applyOp SimOp.snapshot).get_particles_data = u.get_particles_data := by
  have hflat : u.get_particles_data = u.particles.flatMap (fun p => [p.x, p.y, p.z]) := by
    rw [Universe.get_particles_data, gpd_foldl, List.nil_append]
  refine ⟨hflat, ?_, rfl, rfl⟩
  rw [hflat]
  induction u.particles with
  | nil => rfl
  | cons p l ih =>
    rw [List.flatMap_cons, List.length_append, ih, List.length_cons]
    simp
    ring

lemma sqrt_sixteen_hundred : Real.sqrt 1600 = 40 := by
  rw [show (1600 : ℝ) = 40 ^ 2 by norm_num]
  exact Real.sqrt_sq (by norm_num)

/-- C5: with a `100 × 100` box, one particle at `(10, 50)` at rest, one
star added at `(50, 50)` with mass `1000` and no black holes, one update
yields `vx = 0.0625`, `vy = 0`, `x = 10.0625`, `y = 50`, and the
snapshot returns `[10.0625, 50, z₀]` with the depth `z₀` unchanged. -/
theorem one_star_scenario (z0 : ℝ) :
    (({ width := 100, height := 100,
        particles := [{ x := 10, y := 50, z := z0, vx := 0, vy := 0, vz := 0 }],
        stars := [], black_holes := [],
        debug_mode := false } : Universe).add_star 50 50 1000).tick.particles =
      [{ x := 10.0625, y := 50, z := z0, vx := 0.0625, vy := 0, vz := 0 }] ∧
    (({ width := 100, height := 100,
        particles := [{ x := 10, y := 50, z := z0, vx := 0, vy := 0, vz := 0 }],
        stars := [], black_holes := [],
        debug_mode := false } : Universe).add_star 50 50 1000).tick.get_particles_data =
      [10.0625, 50, z0] := by
  have hstar : starStep 10 50 ((0 : ℝ), 0)
      { x := 50, y := 50, mass := 1000, age := 0, is_ignited := true } = (1 / 16, 0) := by
    norm_num [starStep, G, sqrt_sixteen_hundred]
  have hforce : forcePass [{ x := 50, y := 50, mass := 1000, age := 0, is_ignited := true }] []
      { x := 10, y := 50, z := z0, vx := 0, vy := 0, vz := 0 } = (10, 1 / 16, 0) := by
    simp only [forcePass, List.foldl_cons, List.foldl_nil]
    rw [hstar]
  have htp : tickParticle 100 100
      [{ x := 50, y := 50, mass := 1000, age := 0, is_ignited := true }] []
      { x := 10, y := 50, z := z0, vx := 0, vy := 0, vz := 0 } =
      { x := 10.0625, y := 50, z := z0, vx := 0.0625, vy := 0, vz := 0 } := by
    simp only [tickParticle, hforce]
    norm_num
  have hp : (({ width := 100, height := 100,
                particles := [{ x := 10, y := 50, z := z0, vx := 0, vy := 0, vz := 0 }],
                stars := [], black_holes := [],
                debug_mode := false } : Universe).add_star 50 50 1000).tick.particles =
      [{ x := 10.0625, y := 50, z := z0, vx := 0.0625, vy := 0, vz := 0 }] := by
    simp only [Universe.tick, Universe.add_star, List.nil_append, List.map_cons, List.map_nil]
    rw [htp]
    rw [List.filter_cons_of_pos (by norm_num)]
    rfl
  refine ⟨hp, ?_⟩
  rw [Universe.get_particles_data, hp]
  norm_num [List.foldl_cons, List.foldl_nil]

/-- C7 (against the claim): construction with any negative
`particle_count` fails rather than clamping to an empty particle
collection: `particle_count as usize` reinterprets the negative `i32` as
a value of at least `2^31`, and `Vec::with_capacity` then panics with a
capacity overflow since `24 · 2^31` bytes exceed `isize::MAX`. -/
theorem new_negative_count_fails (rand : ℕ → ℝ) (width height : ℝ) (debug_mode : Bool)
    (particle_count : ℤ) (hlo : -(2 ^ 31) ≤ particle_count) (hneg : particle_count < 0) :
    Universe.new rand width height particle_count debug_mode =
      Except.error "capacity overflow" := by
  rw [Universe.new, if_neg]
  simp only [particleSize, asUsize, isizeMax, not_le]
  omega

/-- Witness for C7: the concrete failing construction
`Universe::new(100.0, 100.0, -1, false)`. -/
theorem new_negative_count_fails_app :
    Universe.new (fun _ => 0) 100 100 (-1) false = Except.error "capacity overflow" :=
  new_negative_count_fails (fun _ => 0) 100 100 false (-1) (by norm_num) (by norm_num)

end StellarArchitect
